import Mathlib

/-!
Verification of the marker-identity registry, the real-time resolution loop
(src/Dinner_checking/Generate.py, src/Dinner_checking/detect.py) and the
OCR-based ID-card sorter (src/seperator.py).

External capabilities (OpenCV image decoding, ArUco encoding/detection,
Tesseract OCR, fuzzy matching) are modelled as oracle parameters; the pure
control flow and arithmetic of the scripts are embedded directly.
-/

/-! ## ArUco dictionary configuration

OpenCV predefined ArUco dictionary families, as selected by the two scripts'
compiled-in configuration constants. -/

/-- Predefined ArUco dictionary (encoding family) selectors of cv2.aruco. -/
inductive ArucoDictionaryFamily where
  | DICT_4X4_50
  | DICT_5X5_100
  | DICT_6X6_50
  | DICT_6X6_100
  | DICT_6X6_250
  | DICT_6X6_1000
  | DICT_7X7_1000
deriving DecidableEq

/-- Generate.py line 18: the dictionary the marker generator is configured
with, `ARUCO_DICTIONARY_TYPE = cv2.aruco.DICT_6X6_1000`. -/
def Generate_ARUCO_DICTIONARY_TYPE : ArucoDictionaryFamily :=
  ArucoDictionaryFamily.DICT_6X6_1000

/-- Detect.py line 14: the dictionary the resolution-phase detector is
configured with, `ARUCO_DICTIONARY_TYPE = cv2.aruco.DICT_6X6_250`. -/
def detect_ARUCO_DICTIONARY_TYPE : ArucoDictionaryFamily :=
  ArucoDictionaryFamily.DICT_6X6_250

/-! ## The registry builder (Generate.py, generate_markers_and_map_nested)

The filesystem snapshot is modelled as the output of `os.walk(input_dir)`
after `os.path.relpath`: a list of pairs (relative subfolder path, list of
filenames in that folder), the root folder appearing with relative path ".".
The order of the list is the enumeration order `os.walk` happens to produce;
the order of each filename list is the enumeration order of `os.listdir`. -/

/-- Generate.py line 50: `valid_extensions = ('.png', '.jpg', '.jpeg', '.bmp', '.tiff')`. -/
def valid_extensions : List String :=
  [".png", ".jpg", ".jpeg", ".bmp", ".tiff"]

/-- Suffix test on the underlying character lists (models `str.endswith`). -/
def strEndsWith (s suffixStr : String) : Bool :=
  suffixStr.data.isSuffixOf s.data

/-- Lowercasing character by character (models `str.lower`). -/
def strLower (s : String) : String :=
  String.mk (s.data.map Char.toLower)

/-- Generate.py line 84: `filename.lower().endswith(valid_extensions)`. -/
def isValidImage (filename : String) : Bool :=
  valid_extensions.any fun ext => strEndsWith (strLower filename) ext

/-- Generate.py line 112: `os.path.join(relative_subfolder, filename).replace("\x5c\x5c", "/")`:
the relative path of a file inside a (non-root) subfolder, with forward slashes. -/
def joinRelPath (rel filename : String) : String :=
  rel ++ "/" ++ filename

/-- Lexicographic comparison of character lists by code point, the order
Python `sorted` uses on strings. -/
def charListLe : List Char → List Char → Bool
  | [], _ => true
  | _ :: _, [] => false
  | a :: as, b :: bs =>
    if a.toNat = b.toNat then charListLe as bs
    else decide (a.toNat < b.toNat)

/-- The string order underlying Python `sorted`. -/
def strLeRel (a b : String) : Prop :=
  charListLe a.data b.data = true

instance : DecidableRel strLeRel := fun a b =>
  inferInstanceAs (Decidable (charListLe a.data b.data = true))

theorem charListLe_total : ∀ l₁ l₂ : List Char,
    charListLe l₁ l₂ = true ∨ charListLe l₂ l₁ = true
  | [], _ => Or.inl rfl
  | _ :: _, [] => Or.inr rfl
  | a :: as, b :: bs => by
    by_cases h : a.toNat = b.toNat
    · have := charListLe_total as bs
      simpa [charListLe, h] using this
    · rcases Nat.lt_or_ge a.toNat b.toNat with hlt | hge
      · left
        simp [charListLe, h, hlt]
      · right
        simp [charListLe, Ne.symm h]
        omega

theorem charListLe_trans : ∀ l₁ l₂ l₃ : List Char,
    charListLe l₁ l₂ = true → charListLe l₂ l₃ = true → charListLe l₁ l₃ = true
  | [], _, _, _, _ => rfl
  | _ :: _, [], _, h, _ => by simp [charListLe] at h
  | _ :: _, _ :: _, [], _, h => by simp [charListLe] at h
  | a :: as, b :: bs, c :: cs, h₁, h₂ => by
    by_cases hab : a.toNat = b.toNat <;> by_cases hbc : b.toNat = c.toNat
    · simp only [charListLe, if_pos hab] at h₁
      simp only [charListLe, if_pos hbc] at h₂
      simp [charListLe, hab.trans hbc, charListLe_trans as bs cs h₁ h₂]
    · simp only [charListLe, if_neg hbc, decide_eq_true_eq] at h₂
      have : ¬ a.toNat = c.toNat := by omega
      simp [charListLe, this]
      omega
    · simp only [charListLe, if_neg hab, decide_eq_true_eq] at h₁
      have : ¬ a.toNat = c.toNat := by omega
      simp [charListLe, this]
      omega
    · simp only [charListLe, if_neg hab, decide_eq_true_eq] at h₁
      simp only [charListLe, if_neg hbc, decide_eq_true_eq] at h₂
      have : ¬ a.toNat = c.toNat := by omega
      simp [charListLe, this]
      omega

theorem charListLe_antisymm : ∀ l₁ l₂ : List Char,
    charListLe l₁ l₂ = true → charListLe l₂ l₁ = true → l₁ = l₂
  | [], [], _, _ => rfl
  | [], _ :: _, _, h => by simp [charListLe] at h
  | _ :: _, [], h, _ => by simp [charListLe] at h
  | a :: as, b :: bs, h₁, h₂ => by
    by_cases hab : a.toNat = b.toNat
    · have ha : a = b := Char.eq_of_val_eq (UInt32.toNat.inj hab)
      simp only [charListLe, if_pos hab] at h₁
      simp only [charListLe, if_pos (hab.symm)] at h₂
      rw [ha, charListLe_antisymm as bs h₁ h₂]
    · exfalso
      simp only [charListLe, if_neg hab, decide_eq_true_eq] at h₁
      simp only [charListLe, if_neg (Ne.symm hab), decide_eq_true_eq] at h₂
      omega

instance : IsTotal String strLeRel :=
  ⟨fun a b => charListLe_total a.data b.data⟩

instance : IsTrans String strLeRel :=
  ⟨fun a b c => charListLe_trans a.data b.data c.data⟩

instance : IsAntisymm String strLeRel :=
  ⟨fun a b h₁ h₂ => by
    have := charListLe_antisymm a.data b.data h₁ h₂
    cases a
    cases b
    exact congrArg String.mk this⟩

/-- Python `sorted` on strings (lexicographic by code points); insertion sort
is stable, as Python's sort is. -/
def sortStrings (l : List String) : List String :=
  List.insertionSort strLeRel l

/-- Generate.py lines 82-118, the inner loop over `sorted(filenames)` of one
subfolder: each file whose lowercased name ends in a valid extension gets the
next marker id and the map entry `id ↦ relative_subfolder/filename`; other
files are skipped.  Returns the entries of this folder (in order) and the
counter value after the folder. -/
def processFiles (rel : String) (cid : Nat) : List String → List (Nat × String) × Nat
  | [] => ([], cid)
  | f :: fs =>
    if isValidImage f then
      let rest := processFiles rel (cid + 1) fs
      ((cid, joinRelPath rel f) :: rest.1, rest.2)
    else
      processFiles rel cid fs

/-- Generate.py lines 58-118, the outer loop over `os.walk`: the root folder
(relative path ".") is skipped (`continue`), every other folder contributes
its accepted files in `sorted(filenames)` order; `current_marker_id` is
threaded through all folders (never reset). -/
def processWalk (cid : Nat) : List (String × List String) → List (Nat × String) × Nat
  | [] => ([], cid)
  | (rel, files) :: rest =>
    if rel = "." then
      processWalk cid rest
    else
      let here := processFiles rel cid (sortStrings files)
      let after := processWalk here.2 rest
      (here.1 ++ after.1, after.2)

/-- Generate.py generate_markers_and_map_nested, the construction of
`image_to_marker_map` (lines 50-118) from the os.walk enumeration of the
input folder: the ordered list of (marker id, relative image path) entries,
ids assigned from `current_marker_id = 0`. -/
def generate_markers_and_map_nested (walkOut : List (String × List String)) : List (Nat × String) :=
  (processWalk 0 walkOut).1

/-- Generate.py lines 120-126: the map file is written only when the map is
non-empty (`if not image_to_marker_map: return`). -/
def mapFileContents (walkOut : List (String × List String)) : Option (List (Nat × String)) :=
  let m := generate_markers_and_map_nested walkOut
  if m = [] then none else some m

/-! Spec-side characterizations of the builder, used to state and settle the
claims about it against the embedded code. -/

/-- Spec-side: the number of files anywhere under the asset root (the root
folder included) whose name passes the extension filter: the claim's
"every file under assetRoot recursively" accepted-file count. -/
def spec_acceptedFileCount (walkOut : List (String × List String)) : Nat :=
  (walkOut.flatMap fun e => e.2.filter isValidImage).length

/-- Spec-side: the accepted files located strictly inside subfolders of the
asset root, folder by folder in walk order, each folder's files in
lexicographic order — the paths the builder actually registers. -/
def spec_acceptedSubdirFiles (walkOut : List (String × List String)) : List String :=
  walkOut.flatMap fun e =>
    if e.1 = "." then []
    else ((sortStrings e.2).filter isValidImage).map (joinRelPath e.1)

/-- Spec-side: the assignment the claim describes, identities given to all
accepted subfolder files in fully lexicographic path order. -/
def spec_lexicographicAssignment (walkOut : List (String × List String)) : List (Nat × String) :=
  (sortStrings (spec_acceptedSubdirFiles walkOut)).enum

/-! ## Lemmas about the registry builder -/

theorem processFiles_spec (rel : String) :
    ∀ (files : List String) (cid : Nat),
      ((processFiles rel cid files).1.map Prod.fst =
        List.range' cid (files.filter isValidImage).length) ∧
      ((processFiles rel cid files).1.map Prod.snd =
        (files.filter isValidImage).map (joinRelPath rel)) ∧
      (processFiles rel cid files).2 = cid + (files.filter isValidImage).length
  | [], cid => by simp [processFiles]
  | f :: fs, cid => by
    obtain ⟨ih₁, ih₂, ih₃⟩ := processFiles_spec rel fs (cid + 1)
    obtain ⟨ih₁', ih₂', ih₃'⟩ := processFiles_spec rel fs cid
    by_cases hv : isValidImage f
    · refine ⟨?_, ?_, ?_⟩
      · simp only [processFiles, if_pos hv, List.filter_cons_of_pos hv, List.map_cons,
          List.length_cons, ih₁]
        rw [List.range'_succ]
      · simp only [processFiles, if_pos hv, List.filter_cons_of_pos hv, List.map_cons,
          ih₂, joinRelPath]
      · simp only [processFiles, if_pos hv, List.filter_cons_of_pos hv,
          List.length_cons, ih₃]
        omega
    · simp only [processFiles, if_neg hv, List.filter_cons_of_neg hv]
      exact ⟨ih₁', ih₂', ih₃'⟩

theorem processWalk_spec :
    ∀ (w : List (String × List String)) (cid : Nat),
      ((processWalk cid w).1.map Prod.fst =
        List.range' cid (spec_acceptedSubdirFiles w).length) ∧
      ((processWalk cid w).1.map Prod.snd = spec_acceptedSubdirFiles w) ∧
      (processWalk cid w).2 = cid + (spec_acceptedSubdirFiles w).length
  | [], cid => by simp [processWalk, spec_acceptedSubdirFiles]
  | (rel, files) :: rest, cid => by
    by_cases hr : rel = "."
    · have ih := processWalk_spec rest cid
      simpa [processWalk, spec_acceptedSubdirFiles, hr] using ih
    · obtain ⟨pf₁, pf₂, pf₃⟩ := processFiles_spec rel (sortStrings files) cid
      set a := ((sortStrings files).filter isValidImage).length with ha
      obtain ⟨ih₁, ih₂, ih₃⟩ := processWalk_spec rest (cid + a)
      have hcnt : (processFiles rel cid (sortStrings files)).2 = cid + a := pf₃
      constructor
      · simp only [processWalk, if_neg hr, List.map_append, spec_acceptedSubdirFiles,
          List.flatMap_cons, hcnt, if_neg hr, List.length_append, List.length_map]
        rw [pf₁, ih₁, ← ha]
        have := List.range'_append_1 cid a (spec_acceptedSubdirFiles rest).length
        rw [this]
        congr 1
        simp [spec_acceptedSubdirFiles]
        omega
      constructor
      · simp only [processWalk, if_neg hr, List.map_append, spec_acceptedSubdirFiles,
          List.flatMap_cons, hcnt, if_neg hr]
        rw [pf₂, ih₂]
        rfl
      · simp only [processWalk, if_neg hr, spec_acceptedSubdirFiles, List.flatMap_cons,
          hcnt, if_neg hr, List.length_append, List.length_map]
        rw [ih₃]
        simp [spec_acceptedSubdirFiles]
        omega

theorem sortStrings_congr {l l' : List String} (h : l.Perm l') :
    sortStrings l = sortStrings l' :=
  List.eq_of_perm_of_sorted
    ((List.perm_insertionSort strLeRel l).trans
      (h.trans (List.perm_insertionSort strLeRel l').symm))
    (List.sorted_insertionSort strLeRel l)
    (List.sorted_insertionSort strLeRel l')

theorem processWalk_congr :
    ∀ {w w' : List (String × List String)},
      List.Forall₂ (fun d d' => d.1 = d'.1 ∧ d.2.Perm d'.2) w w' →
      ∀ cid, processWalk cid w = processWalk cid w' := by
  intro w w' h
  induction h with
  | nil => intro cid; rfl
  | @cons a b as bs hab _ ih =>
    intro cid
    obtain ⟨rel, files⟩ := a
    obtain ⟨rel', files'⟩ := b
    obtain ⟨h1, h2⟩ := hab
    dsimp only at h1 h2
    subst h1
    by_cases hr : rel = "."
    · simp [processWalk, hr, ih cid]
    · simp [processWalk, hr, sortStrings_congr h2, ih]

/-! ## Claims about the registry builder -/

/-- C1 (code bug in the source): the marker generator is configured with the
ArUco family DICT_6X6_1000 while the resolution-phase detector is configured
with DICT_6X6_250, although detect.py's own comment demands that its
dictionary "MUST match the generator script". The two compiled-in selections
differ. -/
theorem aruco_dictionary_families_differ :
    Generate_ARUCO_DICTIONARY_TYPE ≠ detect_ARUCO_DICTIONARY_TYPE := by
  decide

/-- C2 counterexample: a snapshot whose root folder itself holds one file with
a recognized image extension. The claim says the builder produces exactly one
entry for every accepted file including files directly in the asset root, but
the builder registers nothing (the walk entry "." is skipped), while the
accepted-file count over the whole tree is 1. -/
theorem root_level_file_skipped_counterexample :
    generate_markers_and_map_nested [(".", ["a.png"])] = [] ∧
    spec_acceptedFileCount [(".", ["a.png"])] = 1 := by
  decide

/-- C2 (amended): the registry builder enumerates recursively and produces
exactly one RegistryEntry per file whose lowercased name ends in a recognized
image extension and that lies strictly inside a subfolder of assetRoot;
files located directly in assetRoot itself are skipped, not registered. -/
theorem registry_entries_are_subfolder_accepted_files :
    ∀ w : List (String × List String),
      (generate_markers_and_map_nested w).map Prod.snd = spec_acceptedSubdirFiles w :=
  fun w => (processWalk_spec w 0).2.1

/-- C3 counterexample: a snapshot whose directory enumeration order is not
lexicographic ("b" listed before "a"). The builder follows the walk order and
assigns identity 0 to "b/x.png", while the claimed fully lexicographic path
order would assign identity 0 to "a/y.png": the two mappings differ. -/
theorem walk_order_not_lexicographic_counterexample :
    generate_markers_and_map_nested [(".", []), ("b", ["x.png"]), ("a", ["y.png"])] ≠
      spec_lexicographicAssignment [(".", []), ("b", ["x.png"]), ("a", ["y.png"])] := by
  decide

/-- C3 (amended): the mapping the builder produces is a pure function of the
walk snapshot and is invariant under the order in which the filesystem
enumerates the files of each directory (filenames are explicitly sorted), so
repeated runs over an unchanged tree with an unchanged directory enumeration
yield an identical mapping; the directory visit order itself, however, is the
filesystem's enumeration order, not a lexicographic path sort. -/
theorem builder_mapping_deterministic_up_to_file_order :
    ∀ (w w' : List (String × List String)),
      List.Forall₂ (fun d d' => d.1 = d'.1 ∧ d.2.Perm d'.2) w w' →
      generate_markers_and_map_nested w = generate_markers_and_map_nested w' :=
  fun _ _ h => congrArg Prod.fst (processWalk_congr h 0)

/-- Witness for the amended C3 theorem at a concrete pair of snapshots that
differ only in file enumeration order. -/
theorem builder_mapping_deterministic_witness :
    generate_markers_and_map_nested [("club", ["b.png", "a.png"])] =
      generate_markers_and_map_nested [("club", ["a.png", "b.png"])] :=
  builder_mapping_deterministic_up_to_file_order _ _
    (List.Forall₂.cons ⟨rfl, List.Perm.swap "a.png" "b.png" []⟩ List.Forall₂.nil)

/-- C7: the identities the builder assigns are exactly the contiguous range
from 0 to the number of accepted files, in scan order: the counter starts at
0, increments once per accepted file and is shared across all subfolders. -/
theorem identities_contiguous_from_zero :
    ∀ w : List (String × List String),
      (generate_markers_and_map_nested w).map Prod.fst =
        List.range (generate_markers_and_map_nested w).length := by
  intro w
  obtain ⟨h₁, h₂, _⟩ := processWalk_spec w 0
  have hgen : generate_markers_and_map_nested w = (processWalk 0 w).1 := rfl
  have hlen : (generate_markers_and_map_nested w).length =
      (spec_acceptedSubdirFiles w).length := by
    rw [hgen, ← h₂, List.length_map]
  rw [List.range_eq_range', hlen, hgen]
  exact h₁

/-! ## Registry serialization (Generate.py line 113, lines 124-126) and the
key parsing of the loader (detect.py lines 49-52)

`json.dump` writes the map with keys `str(current_marker_id)` in insertion
order; `load_resources` parses each key back with `int(marker_id_str)`.
The decimal codec is modelled on character lists. -/

/-- Decimal digit character (code point 48 + d) of a digit d < 10. -/
def digitToChar (d : Nat) : Char :=
  Char.ofNat (48 + d)

/-- Models Python `str(n)` for a non-negative integer: its decimal
representation, most significant digit first. -/
def natToKey (n : Nat) : String :=
  if n = 0 then "0" else String.mk ((Nat.digits 10 n).reverse.map digitToChar)

/-- Whether a character is a decimal digit 0-9. -/
def isDigitChar (c : Char) : Bool :=
  decide (48 ≤ c.toNat) && decide (c.toNat ≤ 57)

/-- Models Python `int(s)` on registry keys: the parsed number of a non-empty
all-digit string, none (ValueError) otherwise. -/
def keyToNat? (s : String) : Option Nat :=
  if s.data ≠ [] ∧ s.data.all isDigitChar then
    some (Nat.ofDigits 10 ((s.data.map fun c => c.toNat - 48).reverse))
  else none

theorem isDigitChar_digitToChar {d : Nat} (h : d < 10) :
    isDigitChar (digitToChar d) = true := by
  interval_cases d <;> decide

theorem toNat_digitToChar {d : Nat} (h : d < 10) :
    (digitToChar d).toNat - 48 = d := by
  interval_cases d <;> decide

/-- Round trip of the decimal key codec: `int(str(n)) = n`. -/
theorem keyToNat?_natToKey (n : Nat) : keyToNat? (natToKey n) = some n := by
  by_cases h0 : n = 0
  · subst h0
    decide
  · have hne : Nat.digits 10 n ≠ [] := Nat.digits_ne_nil_iff_ne_zero.mpr h0
    have hlt : ∀ d ∈ Nat.digits 10 n, d < 10 :=
      fun d hd => Nat.digits_lt_base (by norm_num) hd
    rw [natToKey, if_neg h0, keyToNat?]
    rw [if_pos]
    · congr 1
      rw [List.map_map]
      have hmap : (Nat.digits 10 n).reverse.map ((fun c => c.toNat - 48) ∘ digitToChar) =
          (Nat.digits 10 n).reverse.map id :=
        List.map_congr_left fun d hd =>
          toNat_digitToChar (hlt d (List.mem_reverse.mp hd))
      rw [hmap, List.map_id, List.reverse_reverse, Nat.ofDigits_digits]
    · constructor
      · simp [hne]
      · rw [List.all_eq_true]
        intro c hc
        obtain ⟨d, hd, rfl⟩ := List.mem_map.mp hc
        exact isDigitChar_digitToChar (hlt d (List.mem_reverse.mp hd))

/-- Generate.py lines 113 and 124-126: the registry as persisted to the map
file: insertion-ordered pairs (str(id), relative path). -/
def persistRegistry (reg : List (Nat × String)) : List (String × String) :=
  reg.map fun e => (natToKey e.1, e.2)

/-- detect.py lines 49-52, the key-parsing step of load_resources: the
(identity, path) association recovered from the stored document, entries with
unparsable keys dropped. -/
def recoverPairs (stored : List (String × String)) : List (Nat × String) :=
  stored.filterMap fun e => (keyToNat? e.1).map fun n => (n, e.2)

/-! ## The asset loader (detect.py, load_resources) -/

/-- A decoded image buffer: its pixel dimensions and an abstract payload
standing for the pixel data. -/
structure Image where
  height : Nat
  width : Nat
  payload : Nat
deriving DecidableEq

/-- os.path.join of a folder and a relative filename (detect.py line 52). -/
def pathJoin (folder filename : String) : String :=
  folder ++ "/" ++ filename

/-- Python dict assignment `image_asset_map[n] = img`: replace the value of
an existing key, otherwise append preserving insertion order. -/
def insertEntry : List (Nat × Image) → Nat → Image → List (Nat × Image)
  | [], n, img => [(n, img)]
  | e :: rest, n, img =>
    if e.1 = n then (n, img) :: rest else e :: insertEntry rest n img

/-- detect.py lines 49-64, the loop over `json_map.items()`: parse the key
with int() (ValueError counts one warning line), decode the image at the
joined path (cv2.imread is the oracle `fs`; a None result counts one warning
line), insert each success into the asset map. Returns the asset map and the
number of per-entry warning lines printed. -/
def loadLoop (fs : String → Option Image) (folder : String) :
    List (String × String) → List (Nat × Image) → Nat → List (Nat × Image) × Nat
  | [], tbl, warns => (tbl, warns)
  | e :: rest, tbl, warns =>
    match keyToNat? e.1 with
    | none => loadLoop fs folder rest tbl (warns + 1)
    | some n =>
      match fs (pathJoin folder e.2) with
      | none => loadLoop fs folder rest tbl (warns + 1)
      | some img => loadLoop fs folder rest (insertEntry tbl n img) warns

/-- detect.py load_resources (lines 21-70), the in-memory part: given the
parsed json map and the imread oracle, build the asset table; if no image was
loaded successfully return None (lines 66-68), else the table. The second
component is the number of per-entry warnings. -/
def load_resources (fs : String → Option Image) (folder : String)
    (json_map : List (String × String)) : Option (List (Nat × Image)) × Nat :=
  let r := loadLoop fs folder json_map [] 0
  (if r.1 = [] then none else some r.1, r.2)

/-- The load outcome of one stored entry: some (identity, image) when the key
parses and the image decodes, none otherwise. -/
def loadSuccess (fs : String → Option Image) (folder : String)
    (e : String × String) : Option (Nat × Image) :=
  match keyToNat? e.1 with
  | none => none
  | some n => (fs (pathJoin folder e.2)).map fun img => (n, img)

/-- Spec-side: the asset table built directly from the original registry, one
entry per registry pair whose image decodes. -/
def spec_directLoad (fs : String → Option Image) (folder : String)
    (reg : List (Nat × String)) : List (Nat × Image) :=
  reg.filterMap fun e => (fs (pathJoin folder e.2)).map fun img => (e.1, img)

theorem insertEntry_ne_nil (tbl : List (Nat × Image)) (n : Nat) (img : Image) :
    insertEntry tbl n img ≠ [] := by
  cases tbl with
  | nil => simp [insertEntry]
  | cons e rest =>
    simp only [insertEntry]
    split <;> simp

theorem insertEntry_of_not_mem :
    ∀ (tbl : List (Nat × Image)) (n : Nat) (img : Image),
      (∀ p ∈ tbl, p.1 ≠ n) → insertEntry tbl n img = tbl ++ [(n, img)]
  | [], _, _, _ => rfl
  | e :: rest, n, img, h => by
    have he : e.1 ≠ n := h e (List.mem_cons_self e rest)
    simp only [insertEntry, if_neg he, List.cons_append, List.cons.injEq, true_and]
    exact insertEntry_of_not_mem rest n img fun p hp => h p (List.mem_cons_of_mem e hp)

theorem loadLoop_fst_eq_nil_iff (fs : String → Option Image) (folder : String) :
    ∀ (stored : List (String × String)) (tbl : List (Nat × Image)) (warns : Nat),
      (loadLoop fs folder stored tbl warns).1 = [] ↔
        tbl = [] ∧ stored.all fun e => (loadSuccess fs folder e).isNone
  | [], tbl, warns => by simp [loadLoop]
  | e :: rest, tbl, warns => by
    cases hk : keyToNat? e.1 with
    | none =>
      simp [loadLoop, hk, loadSuccess, loadLoop_fst_eq_nil_iff fs folder rest tbl (warns + 1)]
    | some n =>
      cases hf : fs (pathJoin folder e.2) with
      | none =>
        simp [loadLoop, hk, hf, loadSuccess,
          loadLoop_fst_eq_nil_iff fs folder rest tbl (warns + 1)]
      | some img =>
        have hne := insertEntry_ne_nil tbl n img
        simp [loadLoop, hk, hf, loadSuccess,
          loadLoop_fst_eq_nil_iff fs folder rest (insertEntry tbl n img) warns, hne]

theorem loadLoop_append_form (fs : String → Option Image) (folder : String) :
    ∀ (stored : List (String × String)) (tbl : List (Nat × Image)) (warns : Nat),
      ((stored.filterMap (loadSuccess fs folder)).map Prod.fst).Nodup →
      (∀ k ∈ (stored.filterMap (loadSuccess fs folder)).map Prod.fst,
        ∀ p ∈ tbl, p.1 ≠ k) →
      loadLoop fs folder stored tbl warns =
        (tbl ++ stored.filterMap (loadSuccess fs folder),
          warns + stored.countP fun e => (loadSuccess fs folder e).isNone)
  | [], tbl, warns => by simp [loadLoop]
  | e :: rest, tbl, warns => by
    intro hnd hdisj
    cases hk : keyToNat? e.1 with
    | none =>
      have hsucc : loadSuccess fs folder e = none := by simp [loadSuccess, hk]
      have := loadLoop_append_form fs folder rest tbl (warns + 1)
      simp only [loadLoop, hk, List.filterMap_cons, hsucc, List.countP_cons] at *
      rw [this hnd hdisj]
      simp [hsucc]
      omega
    | some n =>
      cases hf : fs (pathJoin folder e.2) with
      | none =>
        have hsucc : loadSuccess fs folder e = none := by simp [loadSuccess, hk, hf]
        have := loadLoop_append_form fs folder rest tbl (warns + 1)
        simp only [loadLoop, hk, hf, List.filterMap_cons, hsucc, List.countP_cons] at *
        rw [this hnd hdisj]
        simp [hsucc]
        omega
      | some img =>
        have hsucc : loadSuccess fs folder e = some (n, img) := by
          simp [loadSuccess, hk, hf]
        have hnd' := hnd
        rw [List.filterMap_cons, hsucc] at hnd'
        simp only [List.map_cons, List.nodup_cons] at hnd'
        obtain ⟨hn_not, hnd_rest⟩ := hnd'
        have hdisj_n : ∀ p ∈ tbl, p.1 ≠ n := by
          intro p hp
          refine hdisj n ?_ p hp
          rw [List.filterMap_cons, hsucc]
          simp
        have hins := insertEntry_of_not_mem tbl n img hdisj_n
        have hdisj' : ∀ k ∈ (rest.filterMap (loadSuccess fs folder)).map Prod.fst,
            ∀ p ∈ insertEntry tbl n img, p.1 ≠ k := by
          intro k hk' p hp
          rw [hins] at hp
          rcases List.mem_append.mp hp with hp | hp
          · refine hdisj k ?_ p hp
            rw [List.filterMap_cons, hsucc]
            simp [hk']
          · have hpv : p = (n, img) := by simpa using hp
            subst hpv
            intro hcon
            have : k ∈ (rest.filterMap (loadSuccess fs folder)).map Prod.fst := hk'
            rw [← hcon] at this
            exact hn_not this
        have := loadLoop_append_form fs folder rest (insertEntry tbl n img) warns
          hnd_rest hdisj'
        simp only [loadLoop, hk, hf, List.filterMap_cons, hsucc, List.countP_cons]
        rw [this, hins]
        simp [hsucc]

theorem loadSuccess_persist (fs : String → Option Image) (folder : String)
    (reg : List (Nat × String)) :
    (persistRegistry reg).filterMap (loadSuccess fs folder) =
      spec_directLoad fs folder reg := by
  rw [persistRegistry, List.filterMap_map]
  have h : (loadSuccess fs folder ∘ fun e : Nat × String => (natToKey e.1, e.2)) =
      fun e : Nat × String => (fs (pathJoin folder e.2)).map fun img => (e.1, img) := by
    funext e
    simp [loadSuccess, keyToNat?_natToKey, Function.comp]
  rw [h]
  rfl

theorem loadSuccess_persist_countP (fs : String → Option Image) (folder : String)
    (reg : List (Nat × String)) :
    ((persistRegistry reg).countP fun e => (loadSuccess fs folder e).isNone) =
      reg.countP fun e => (fs (pathJoin folder e.2)).isNone := by
  rw [persistRegistry, List.countP_map]
  congr 1
  funext e
  simp [loadSuccess, keyToNat?_natToKey, Function.comp]

theorem spec_directLoad_keys_sublist (fs : String → Option Image) (folder : String) :
    ∀ reg : List (Nat × String),
      ((spec_directLoad fs folder reg).map Prod.fst).Sublist (reg.map Prod.fst)
  | [] => by simp [spec_directLoad]
  | e :: rest => by
    have ih := spec_directLoad_keys_sublist fs folder rest
    simp only [spec_directLoad, List.filterMap_cons, List.map_cons]
    cases hf : fs (pathJoin folder e.2) with
    | none =>
      simp only [Option.map_none']
      exact ih.cons e.1
    | some img =>
      simp only [Option.map_some', List.map_cons]
      exact ih.cons₂ e.1

/-- C6: the asset loader, given a registry whose first entry references a file
the imread oracle cannot decode and whose other two entries (with distinct
identities) reference decodable files, returns an AssetTable holding exactly
the two valid entries and reports exactly one warning; and in general it
returns failure (None) instead of a table exactly when zero entries load
successfully. -/
theorem asset_loader_partial_table_and_floor :
    (∀ (fs : String → Option Image) (folder p₁ p₂ p₃ : String) (n₁ n₂ n₃ : Nat)
        (i₂ i₃ : Image),
      n₂ ≠ n₃ →
      fs (pathJoin folder p₁) = none →
      fs (pathJoin folder p₂) = some i₂ →
      fs (pathJoin folder p₃) = some i₃ →
      load_resources fs folder
          [(natToKey n₁, p₁), (natToKey n₂, p₂), (natToKey n₃, p₃)] =
        (some [(n₂, i₂), (n₃, i₃)], 1)) ∧
    (∀ (fs : String → Option Image) (folder : String)
        (stored : List (String × String)),
      (load_resources fs folder stored).1 = none ↔
        stored.all fun e => (loadSuccess fs folder e).isNone) := by
  constructor
  · intro fs folder p₁ p₂ p₃ n₁ n₂ n₃ i₂ i₃ hne h₁ h₂ h₃
    simp only [load_resources, loadLoop, keyToNat?_natToKey, h₁, h₂, h₃,
      insertEntry, if_neg hne]
    simp
  · intro fs folder stored
    have h := loadLoop_fst_eq_nil_iff fs folder stored [] 0
    simp only [true_and] at h
    simp only [load_resources]
    constructor
    · intro hnone
      by_cases hx : (loadLoop fs folder stored [] 0).1 = []
      · exact h.mp hx
      · simp only [if_neg hx] at hnone
        cases hnone
    · intro hall
      have hx : (loadLoop fs folder stored [] 0).1 = [] := h.mpr hall
      simp [hx]

/-- Witness for the asset-loader claim at a concrete registry and imread
oracle: entry "5" references an undecodable file, entries "1" and "2" decode;
the table holds exactly those two and one warning is reported. -/
theorem asset_loader_partial_table_witness :
    load_resources
        (fun p => if p = "r/b.png" then some ⟨2, 2, 0⟩
          else if p = "r/c.png" then some ⟨3, 3, 1⟩ else none) "r"
        [(natToKey 5, "a.png"), (natToKey 1, "b.png"), (natToKey 2, "c.png")] =
      (some [(1, ⟨2, 2, 0⟩), (2, ⟨3, 3, 1⟩)], 1) :=
  asset_loader_partial_table_and_floor.1
    (fun p => if p = "r/b.png" then some ⟨2, 2, 0⟩
      else if p = "r/c.png" then some ⟨3, 3, 1⟩ else none)
    "r" "a.png" "b.png" "c.png" 5 1 2 ⟨2, 2, 0⟩ ⟨3, 3, 1⟩
    (by decide) (by decide) (by decide) (by decide)

/-- C8: persisting a registry (keys serialized with str, insertion order) and
loading it back reproduces the same (identity, path) pairs; the recovered
association is invariant, as a multiset, under any reordering of the stored
document; and on an unmodified filesystem the loader's table is exactly the
table built directly from the original registry. -/
theorem registry_persist_load_roundtrip :
    (∀ reg : List (Nat × String), recoverPairs (persistRegistry reg) = reg) ∧
    (∀ stored stored' : List (String × String), stored.Perm stored' →
      (recoverPairs stored).Perm (recoverPairs stored')) ∧
    (∀ (reg : List (Nat × String)) (fs : String → Option Image) (folder : String),
      (reg.map Prod.fst).Nodup →
      load_resources fs folder (persistRegistry reg) =
        (if spec_directLoad fs folder reg = [] then none
          else some (spec_directLoad fs folder reg),
          reg.countP fun e => (fs (pathJoin folder e.2)).isNone)) := by
  refine ⟨?_, ?_, ?_⟩
  · intro reg
    induction reg with
    | nil => rfl
    | cons e rest ih =>
      have hstep : recoverPairs (persistRegistry (e :: rest)) =
          (e.1, e.2) :: recoverPairs (persistRegistry rest) := by
        simp [persistRegistry, recoverPairs, keyToNat?_natToKey]
      rw [hstep, ih]
  · intro stored stored' hperm
    exact hperm.filterMap _
  · intro reg fs folder hnd
    have hkeys : ((persistRegistry reg).filterMap (loadSuccess fs folder)).map Prod.fst =
        (spec_directLoad fs folder reg).map Prod.fst := by
      rw [loadSuccess_persist]
    have hnd' : (((persistRegistry reg).filterMap (loadSuccess fs folder)).map Prod.fst).Nodup := by
      rw [hkeys]
      exact (spec_directLoad_keys_sublist fs folder reg).nodup hnd
    have hdisj : ∀ k ∈ ((persistRegistry reg).filterMap (loadSuccess fs folder)).map Prod.fst,
        ∀ p ∈ ([] : List (Nat × Image)), p.1 ≠ k := by
      intro k _ p hp
      cases hp
    have := loadLoop_append_form fs folder (persistRegistry reg) [] 0 hnd' hdisj
    simp only [load_resources, this, List.nil_append, loadSuccess_persist,
      loadSuccess_persist_countP, Nat.zero_add]

/-- Witness for the registry round-trip claim at a concrete registry and a
concrete reordering of the stored document. -/
theorem registry_persist_load_roundtrip_witness :
    recoverPairs (persistRegistry [(0, "IBOT_CLUB/a.jpg"), (12, "RAFTAAR/b.png")]) =
      [(0, "IBOT_CLUB/a.jpg"), (12, "RAFTAAR/b.png")] ∧
    (recoverPairs [("12", "b.png"), ("0", "a.jpg")]).Perm
      (recoverPairs [("0", "a.jpg"), ("12", "b.png")]) :=
  ⟨registry_persist_load_roundtrip.1 _,
    registry_persist_load_roundtrip.2.1 _ _
      (List.Perm.swap ("0", "a.jpg") ("12", "b.png") [])⟩

/-! ## The render geometry of the resolution loop (detect.py lines 129-145)

The scale factor is a real-valued computation (Python float); it is modelled
exactly over ℚ. Python `int(...)` truncates toward zero, which on these
non-negative values is the floor; Python `//` is flooring division, Int.fdiv. -/

/-- detect.py lines 130-141: scale = min(disp_h / img_h, disp_w / img_w);
new_w = int(img_w * scale); new_h = int(img_h * scale);
y_offset = (disp_h - new_h) // 2; x_offset = (disp_w - new_w) // 2.
Returns (new_h, new_w, y_offset, x_offset). -/
def renderGeometry (img_h img_w disp_h disp_w : Nat) : Int × Int × Int × Int :=
  let scale : ℚ := min ((disp_h : ℚ) / (img_h : ℚ)) ((disp_w : ℚ) / (img_w : ℚ))
  let new_w : Int := Int.floor ((img_w : ℚ) * scale)
  let new_h : Int := Int.floor ((img_h : ℚ) * scale)
  let y_offset : Int := ((disp_h : Int) - new_h).fdiv 2
  let x_offset : Int := ((disp_w : Int) - new_w).fdiv 2
  (new_h, new_w, y_offset, x_offset)

theorem fdiv_two_margins (e : Int) (he : 0 ≤ e) :
    e.fdiv 2 ≤ e - e.fdiv 2 ∧ e - e.fdiv 2 ≤ e.fdiv 2 + 1 := by
  obtain ⟨m, rfl⟩ := Int.eq_ofNat_of_zero_le he
  rw [show ((2 : Int)) = ((2 : Nat) : Int) from rfl, ← Int.ofNat_fdiv]
  constructor <;> omega

/-- C5 counterexample: a 400x800 asset on a 601x800 canvas. The render is
(new_h, new_w, y_offset, x_offset) = (400, 800, 100, 0): the top margin is
100 rows but the bottom margin is 601 - 400 - 100 = 101 rows, so the claimed
equal margins on each axis fail (floor division loses one pixel). -/
theorem render_margins_unequal_counterexample :
    renderGeometry 400 800 601 800 = (400, 800, 100, 0) ∧
    ¬ ((100 : Int) = (601 : Int) - 400 - 100) := by
  constructor
  · have hmin : min ((601 : ℚ) / (400 : ℚ)) ((800 : ℚ) / (800 : ℚ)) = 1 := by
      rw [min_eq_right] <;> norm_num
    simp only [renderGeometry]
    norm_num [hmin]
    decide
  · decide

/-- C5 (amended): the render uses the uniform scale min(H/h, W/w) computed
exactly (the float computation modelled over ℚ), truncates the scaled
dimensions downward to whole pixels, keeps the asset inside the canvas, and
centers it with the lower/left margin floor((canvas - scaled)/2), so the two
margins of an axis are equal up to one pixel (the far margin may exceed the
near one by exactly one when the leftover is odd); the claim's 400x800 asset
on a 600x800 canvas renders at (new_h, new_w, y_offset, x_offset) =
(400, 800, 100, 0), occupying rows 100 to 500 and the full width. -/
theorem render_scale_truncate_center (h w H W : Nat) (hh : 0 < h) (hw : 0 < w) :
    ∃ nh nw yo xo : Int,
      renderGeometry h w H W = (nh, nw, yo, xo) ∧
      nh = Int.floor ((h : ℚ) * min ((H : ℚ) / (h : ℚ)) ((W : ℚ) / (w : ℚ))) ∧
      nw = Int.floor ((w : ℚ) * min ((H : ℚ) / (h : ℚ)) ((W : ℚ) / (w : ℚ))) ∧
      0 ≤ nh ∧ nh ≤ (H : Int) ∧ 0 ≤ nw ∧ nw ≤ (W : Int) ∧
      yo = ((H : Int) - nh).fdiv 2 ∧ xo = ((W : Int) - nw).fdiv 2 ∧
      yo ≤ (H : Int) - nh - yo ∧ (H : Int) - nh - yo ≤ yo + 1 ∧
      xo ≤ (W : Int) - nw - xo ∧ (W : Int) - nw - xo ≤ xo + 1 ∧
      renderGeometry 400 800 600 800 = (400, 800, 100, 0) := by
  have hh' : (0 : ℚ) < (h : ℚ) := by exact_mod_cast hh
  have hw' : (0 : ℚ) < (w : ℚ) := by exact_mod_cast hw
  set s : ℚ := min ((H : ℚ) / (h : ℚ)) ((W : ℚ) / (w : ℚ)) with hs
  have hs0 : 0 ≤ s := le_min (by positivity) (by positivity)
  have hnh0 : (0 : Int) ≤ Int.floor ((h : ℚ) * s) :=
    Int.le_floor.mpr (by push_cast; positivity)
  have hnw0 : (0 : Int) ≤ Int.floor ((w : ℚ) * s) :=
    Int.le_floor.mpr (by push_cast; positivity)
  have hnhH : Int.floor ((h : ℚ) * s) ≤ (H : Int) := by
    have h1 : (h : ℚ) * s ≤ (h : ℚ) * ((H : ℚ) / (h : ℚ)) :=
      mul_le_mul_of_nonneg_left (min_le_left _ _) (le_of_lt hh')
    have h2 : (h : ℚ) * ((H : ℚ) / (h : ℚ)) = (H : ℚ) := by
      field_simp
    calc Int.floor ((h : ℚ) * s) ≤ Int.floor ((H : ℚ)) :=
          Int.floor_le_floor (h2 ▸ h1)
      _ = (H : Int) := Int.floor_natCast H
  have hnwW : Int.floor ((w : ℚ) * s) ≤ (W : Int) := by
    have h1 : (w : ℚ) * s ≤ (w : ℚ) * ((W : ℚ) / (w : ℚ)) :=
      mul_le_mul_of_nonneg_left (min_le_right _ _) (le_of_lt hw')
    have h2 : (w : ℚ) * ((W : ℚ) / (w : ℚ)) = (W : ℚ) := by
      field_simp
    calc Int.floor ((w : ℚ) * s) ≤ Int.floor ((W : ℚ)) :=
          Int.floor_le_floor (h2 ▸ h1)
      _ = (W : Int) := Int.floor_natCast W
  obtain ⟨hy1, hy2⟩ := fdiv_two_margins ((H : Int) - Int.floor ((h : ℚ) * s)) (by omega)
  obtain ⟨hx1, hx2⟩ := fdiv_two_margins ((W : Int) - Int.floor ((w : ℚ) * s)) (by omega)
  refine ⟨Int.floor ((h : ℚ) * s), Int.floor ((w : ℚ) * s),
    ((H : Int) - Int.floor ((h : ℚ) * s)).fdiv 2,
    ((W : Int) - Int.floor ((w : ℚ) * s)).fdiv 2,
    rfl, rfl, rfl, hnh0, hnhH, hnw0, hnwW, rfl, rfl,
    hy1, by omega, hx1, by omega, ?_⟩
  have hmin : min ((600 : ℚ) / (400 : ℚ)) ((800 : ℚ) / (800 : ℚ)) = 1 := by
    rw [min_eq_right] <;> norm_num
  simp only [renderGeometry]
  norm_num [hmin]
  decide

/-- Witness for the render-geometry claim at the claim's own concrete input:
a 400x800 asset on a 600x800 canvas. -/
theorem render_scale_truncate_center_witness :
    ∃ nh nw yo xo : Int,
      renderGeometry 400 800 600 800 = (nh, nw, yo, xo) ∧
      nh = Int.floor (((400 : ℕ) : ℚ) *
        min (((600 : ℕ) : ℚ) / ((400 : ℕ) : ℚ)) (((800 : ℕ) : ℚ) / ((800 : ℕ) : ℚ))) ∧
      nw = Int.floor (((800 : ℕ) : ℚ) *
        min (((600 : ℕ) : ℚ) / ((400 : ℕ) : ℚ)) (((800 : ℕ) : ℚ) / ((800 : ℕ) : ℚ))) ∧
      0 ≤ nh ∧ nh ≤ ((600 : ℕ) : Int) ∧ 0 ≤ nw ∧ nw ≤ ((800 : ℕ) : Int) ∧
      yo = (((600 : ℕ) : Int) - nh).fdiv 2 ∧ xo = (((800 : ℕ) : Int) - nw).fdiv 2 ∧
      yo ≤ ((600 : ℕ) : Int) - nh - yo ∧ ((600 : ℕ) : Int) - nh - yo ≤ yo + 1 ∧
      xo ≤ ((800 : ℕ) : Int) - nw - xo ∧ ((800 : ℕ) : Int) - nw - xo ≤ xo + 1 ∧
      renderGeometry 400 800 600 800 = (400, 800, 100, 0) :=
  render_scale_truncate_center 400 800 600 800 (by decide) (by decide)

/-! ## The resolution loop (detect.py main, lines 104-163)

Each iteration reads a frame, runs the external detector (modelled by the
list of identities it reports, in the detector's order; a frame with no
detections corresponds to `ids is None`), copies the pristine black canvas,
composites at most one asset onto the copy, and shows the result. -/

/-- detect.py line 17: `DISPLAY_WINDOW_HEIGHT = 600`. -/
def DISPLAY_WINDOW_HEIGHT : Nat := 600

/-- detect.py line 18: `DISPLAY_WINDOW_WIDTH = 800`. -/
def DISPLAY_WINDOW_WIDTH : Nat := 800

/-- The resolution state of one frame: either no mapped marker was resolved,
or the asset of one identity is being shown. -/
inductive DisplayState where
  | waiting
  | showing (id : Nat)
deriving DecidableEq

/-- detect.py lines 115-127 as a state decision: with no detections the frame
waits; otherwise only `ids[0][0]` is consulted, and the frame shows it only
when it is a key of the asset table. -/
def resolveFrame (ids : List Nat) (table : List (Nat × Image)) : DisplayState :=
  match ids with
  | [] => DisplayState.waiting
  | first :: _ =>
    match List.lookup first table with
    | some _ => DisplayState.showing first
    | none => DisplayState.waiting

/-- The contents of the AR display canvas, as the operations that produced
it: the pristine black canvas (np.zeros, line 95), text drawn on a base
(cv2.putText, lines 149-155), or an asset composited onto a base at a
geometry (lines 138-144). -/
inductive CanvasContent where
  | blank
  | withText (base : CanvasContent)
  | withAsset (base : CanvasContent) (id : Nat) (geom : Int × Int × Int × Int)
deriving DecidableEq

/-- detect.py lines 113-155, one iteration's render: `current_display`
starts as a copy of the pristine `display_canvas`; if the first detected
identity has a loaded asset it is resized with renderGeometry and composited,
otherwise (no detections, or first identity unmapped) the waiting prompt
"Scan an ArUco Code" is drawn. -/
def renderFrame (display_canvas : CanvasContent) (ids : List Nat)
    (table : List (Nat × Image)) (dispH dispW : Nat) : CanvasContent :=
  match ids with
  | [] => CanvasContent.withText display_canvas
  | first :: _ =>
    match List.lookup first table with
    | some img =>
      CanvasContent.withAsset display_canvas first
        (renderGeometry img.height img.width dispH dispW)
    | none => CanvasContent.withText display_canvas

/-- detect.py lines 104-163, the while loop over a finite stream of frames
(each frame given by its detector output): `display_canvas` is created once
before the loop and never written to; every iteration renders onto a fresh
copy of it. Returns the successive displayed canvases. -/
def resolutionLoop (table : List (Nat × Image)) (dispH dispW : Nat)
    (display_canvas : CanvasContent) : List (List Nat) → List CanvasContent
  | [] => []
  | ids :: rest =>
    renderFrame display_canvas ids table dispH dispW ::
      resolutionLoop table dispH dispW display_canvas rest

/-- C4: only the first identity in the detector's returned order is ever
considered: a frame whose first detected identity is in the asset table
resolves to SHOWING(first) whatever follows it; the resolution is unchanged
by any replacement of the tail of the detection list; and the claim's frame
[7, 3] with both identities in the table resolves to SHOWING(7). -/
theorem first_detected_identity_wins :
    (∀ (a : Nat) (rest : List Nat) (table : List (Nat × Image)),
      (List.lookup a table).isSome →
      resolveFrame (a :: rest) table = DisplayState.showing a) ∧
    (∀ (a : Nat) (rest rest' : List Nat) (table : List (Nat × Image)),
      resolveFrame (a :: rest) table = resolveFrame (a :: rest') table) ∧
    (∀ table : List (Nat × Image),
      (List.lookup 7 table).isSome → (List.lookup 3 table).isSome →
      resolveFrame [7, 3] table = DisplayState.showing 7) := by
  refine ⟨?_, ?_, ?_⟩
  · intro a rest table h
    cases hl : List.lookup a table with
    | none => rw [hl] at h; cases h
    | some img => simp [resolveFrame, hl]
  · intro a rest rest' table
    cases hl : List.lookup a table <;> simp [resolveFrame, hl]
  · intro table h7 _
    cases hl : List.lookup 7 table with
    | none => rw [hl] at h7; cases h7
    | some img => simp [resolveFrame, hl]

/-- Witness for the first-detected-wins claim at the claim's concrete frame
[7, 3] and a table holding both identities. -/
theorem first_detected_identity_wins_witness :
    resolveFrame [7, 3] [(7, ⟨10, 10, 0⟩), (3, ⟨20, 20, 1⟩)] =
      DisplayState.showing 7 :=
  first_detected_identity_wins.2.2 [(7, ⟨10, 10, 0⟩), (3, ⟨20, 20, 1⟩)]
    (by decide) (by decide)

/-- C9: every cycle's DisplayFrame is recomputed from the pristine canvas:
the displayed canvas of each frame is a function of that frame's detections
alone (never of any earlier frame's render); a frame with zero detections
renders the waiting prompt on the blank canvas, and so does a frame whose
first detected identity has no entry in the asset table. -/
theorem frame_render_fresh_and_waiting :
    (∀ (table : List (Nat × Image)) (dispH dispW : Nat)
        (frames : List (List Nat)),
      resolutionLoop table dispH dispW CanvasContent.blank frames =
        frames.map fun ids =>
          renderFrame CanvasContent.blank ids table dispH dispW) ∧
    (∀ (table : List (Nat × Image)) (dispH dispW : Nat),
      renderFrame CanvasContent.blank [] table dispH dispW =
        CanvasContent.withText CanvasContent.blank) ∧
    (∀ (table : List (Nat × Image)) (dispH dispW : Nat) (a : Nat)
        (rest : List Nat),
      List.lookup a table = none →
      renderFrame CanvasContent.blank (a :: rest) table dispH dispW =
        CanvasContent.withText CanvasContent.blank) := by
  refine ⟨?_, ?_, ?_⟩
  · intro table dispH dispW frames
    induction frames with
    | nil => rfl
    | cons ids rest ih => simp [resolutionLoop, ih]
  · intro table dispH dispW
    rfl
  · intro table dispH dispW a rest h
    simp [renderFrame, h]

/-- Witness for the fresh-canvas claim: three frames (one empty detection,
one unmapped identity, one mapped identity) rendered by the loop, each
computed from the blank canvas, the unmapped and empty frames waiting. -/
theorem frame_render_fresh_and_waiting_witness :
    resolutionLoop [(7, ⟨10, 10, 0⟩)] 600 800 CanvasContent.blank
        [[], [9], [7]] =
      [[], [9], [7]].map (fun ids =>
        renderFrame CanvasContent.blank ids [(7, ⟨10, 10, 0⟩)] 600 800) ∧
    renderFrame CanvasContent.blank [9] [(7, ⟨10, 10, 0⟩)] 600 800 =
      CanvasContent.withText CanvasContent.blank :=
  ⟨frame_render_fresh_and_waiting.1 [(7, ⟨10, 10, 0⟩)] 600 800 [[], [9], [7]],
    frame_render_fresh_and_waiting.2.2 [(7, ⟨10, 10, 0⟩)] 600 800 9 []
      (by decide)⟩

/-! ## The OCR-based ID-card sorter (seperator.py)

cv2.imread, the ROI crop with preprocess_for_ocr and pytesseract, and
thefuzz's process.extractOne are external capabilities, modelled as oracles;
exceptions raised inside the per-file try block are modelled by the Except
result of the OCR oracle. The control flow around them is embedded. -/

/-- seperator.py lines 28-33: the fixed club text region of an ID card. -/
structure Roi where
  y1 : Nat
  y2 : Nat
  x1 : Nat
  x2 : Nat
deriving DecidableEq

/-- seperator.py lines 28-33: `CLUB_ROI`. -/
def CLUB_ROI : Roi := ⟨750, 910, 80, 520⟩

/-- seperator.py line 36: `MATCH_THRESHOLD = 40`. -/
def MATCH_THRESHOLD : Nat := 40

/-- Strips leading and trailing whitespace characters (Python `str.strip`). -/
def stripWhitespaceChars (l : List Char) : List Char :=
  ((l.dropWhile Char.isWhitespace).reverse.dropWhile Char.isWhitespace).reverse

/-- Uppercasing character by character (models `str.upper`). -/
def strUpper (s : String) : String :=
  String.mk (s.data.map Char.toUpper)

/-- seperator.py line 115: `ocr_text.strip().upper()`. -/
def normalizeOcrText (raw : String) : String :=
  strUpper (String.mk (stripWhitespaceChars raw.data))

/-- Characters kept by seperator.py line 45's `re.sub` pattern: ASCII
letters, digits and the space. -/
def keepAlnumSpace (c : Char) : Bool :=
  c.isAlpha || c.isDigit || c = ' '

/-- seperator.py lines 43-46 sanitize_foldername: drop every character that
is not an ASCII letter, digit or space, strip, then turn spaces into
underscores. -/
def sanitize_foldername (name_text : String) : String :=
  String.mk ((stripWhitespaceChars (name_text.data.filter keepAlnumSpace)).map
    fun c => if c = ' ' then '_' else c)

/-- The external capabilities the sorter calls per file: cv2.imread (None on
an unreadable image), the crop + preprocess_for_ocr + pytesseract chain
(Except.error models an exception raised inside the try block), and
process.extractOne over the club vocabulary (None when the vocabulary is
empty), returning the best club and its integer score. -/
structure OcrOracles where
  imread : String → Option Image
  ocrText : Image → Roi → Except String String
  extractOne : String → List String → Option (String × Nat)

/-- The effect of processing one file: moved to a new path, or left at its
original path. -/
inductive FileAction where
  | moved (newPath : String)
  | unmoved
deriving DecidableEq

/-- seperator.py lines 75-148, the body of sort_images_by_club_validated for
one filename: unreadable image → skip; exception → skip (the except clause);
empty normalized OCR text → skip; no best match or score below threshold →
skip; otherwise the file is moved into the sanitized club folder under the
source folder, keeping its filename. -/
def sort_images_step (o : OcrOracles) (roi : Roi) (clubs : List String)
    (threshold : Nat) (source_dir filename : String) : FileAction :=
  match o.imread (pathJoin source_dir filename) with
  | none => FileAction.unmoved
  | some img =>
    match o.ocrText img roi with
    | Except.error _ => FileAction.unmoved
    | Except.ok raw =>
      let ocr_text := normalizeOcrText raw
      if ocr_text = "" then FileAction.unmoved
      else
        match o.extractOne ocr_text clubs with
        | none => FileAction.unmoved
        | some best_match =>
          if threshold ≤ best_match.2 then
            FileAction.moved
              (pathJoin (pathJoin source_dir (sanitize_foldername best_match.1))
                filename)
          else FileAction.unmoved

/-- C10: a file is moved out of the source folder exactly when the image is
readable, OCR (with no exception) produced text that is non-empty after
strip and uppercase, and the best fuzzy match scores at least the threshold;
in every other case the file stays unmoved, and a move always targets the
sanitized best-match club folder inside the source folder. -/
theorem file_moved_iff_confident_match :
    ∀ (o : OcrOracles) (roi : Roi) (clubs : List String) (threshold : Nat)
      (source_dir filename target : String),
      sort_images_step o roi clubs threshold source_dir filename =
          FileAction.moved target ↔
        ∃ (img : Image) (raw club : String) (score : Nat),
          o.imread (pathJoin source_dir filename) = some img ∧
          o.ocrText img roi = Except.ok raw ∧
          normalizeOcrText raw ≠ "" ∧
          o.extractOne (normalizeOcrText raw) clubs = some (club, score) ∧
          threshold ≤ score ∧
          target = pathJoin (pathJoin source_dir (sanitize_foldername club))
            filename := by
  intro o roi clubs threshold source_dir filename target
  cases h1 : o.imread (pathJoin source_dir filename) with
  | none =>
    simp only [sort_images_step, h1]
    constructor
    · intro hcon
      cases hcon
    · rintro ⟨img, raw, club, score, himg, -⟩
      cases himg
  | some img =>
    cases h2 : o.ocrText img roi with
    | error e =>
      simp only [sort_images_step, h1, h2]
      constructor
      · intro hcon
        cases hcon
      · rintro ⟨img', raw, club, score, himg, hocr, -⟩
        cases himg
        rw [h2] at hocr
        cases hocr
    | ok raw =>
      by_cases h3 : normalizeOcrText raw = ""
      · simp only [sort_images_step, h1, h2, if_pos h3]
        constructor
        · intro hcon
          cases hcon
        · rintro ⟨img', raw', club, score, himg, hocr, hne, -⟩
          cases himg
          rw [h2] at hocr
          cases hocr
          exact absurd h3 hne
      · cases h4 : o.extractOne (normalizeOcrText raw) clubs with
        | none =>
          simp only [sort_images_step, h1, h2, if_neg h3, h4]
          constructor
          · intro hcon
            cases hcon
          · rintro ⟨img', raw', club, score, himg, hocr, -, hext, -⟩
            cases himg
            rw [h2] at hocr
            cases hocr
            rw [h4] at hext
            cases hext
        | some bm =>
          by_cases h5 : threshold ≤ bm.2
          · simp only [sort_images_step, h1, h2, if_neg h3, h4, if_pos h5]
            constructor
            · intro hmv
              cases hmv
              exact ⟨img, raw, bm.1, bm.2, rfl, h2, h3, by rw [h4], h5, rfl⟩
            · rintro ⟨img', raw', club, score, himg, hocr, -, hext, -, htgt⟩
              cases himg
              rw [h2] at hocr
              cases hocr
              rw [h4] at hext
              cases hext
              rw [htgt]
          · simp only [sort_images_step, h1, h2, if_neg h3, h4, if_neg h5]
            constructor
            · intro hcon
              cases hcon
            · rintro ⟨img', raw', club, score, himg, hocr, -, hext, hsc, -⟩
              cases himg
              rw [h2] at hocr
              cases hocr
              rw [h4] at hext
              cases hext
              exact absurd hsc h5

/-- Witness for the sorter claim at concrete oracles: a readable card whose
OCR text " ibot club" (with surrounding whitespace) normalizes to
"IBOT CLUB" and matches with score 95: the file is moved into the sanitized
club folder; the hypotheses of the characterization are discharged by
computation. -/
theorem file_moved_iff_confident_match_witness :
    sort_images_step
        ⟨fun p => if p = "src/ID1.png" then some ⟨1080, 1920, 7⟩ else none,
          fun _ _ => Except.ok " ibot club\n",
          fun t _ => if t = "IBOT CLUB" then some ("IBOT CLUB", 95) else none⟩
        CLUB_ROI ["IBOT CLUB"] MATCH_THRESHOLD "src" "ID1.png" =
      FileAction.moved "src/IBOT_CLUB/ID1.png" :=
  (file_moved_iff_confident_match
      ⟨fun p => if p = "src/ID1.png" then some ⟨1080, 1920, 7⟩ else none,
        fun _ _ => Except.ok " ibot club\n",
        fun t _ => if t = "IBOT CLUB" then some ("IBOT CLUB", 95) else none⟩
      CLUB_ROI ["IBOT CLUB"] MATCH_THRESHOLD "src" "ID1.png"
      "src/IBOT_CLUB/ID1.png").mpr
    ⟨⟨1080, 1920, 7⟩, " ibot club\n", "IBOT CLUB", 95,
      by decide, rfl, by decide, by decide, by decide, by decide⟩
